import Mathlib

/-!
Verification of the orchestration of the aerial_mapper orthomosaic demos
(`main-ortho-backward-grid.cc` and `main-ortho-backward-grid-incremental.cc`).

The incremental demo's main loop accumulates every consumed frame (its image
and its pose, parallel vectors indexed by the loop counter) into window
buffers `images_subset` / `T_G_Bs_subset`, triggers a stereo reconstruction
step (`stereo.addFrame`) whenever the running counter `skip` is a multiple of
`FLAGS_dense_pcl_use_every_nth_image`, and — guarded by `pcl_cnt > 0` —
fuses the freshly produced point cloud into the DSM
(`digital_surface_map.process`), composites the orthomosaic from the
accumulated window (`mosaic.process`), publishes once, and clears the
window buffers.

Frames are identified by their 0-based index `i` into the parallel
`images` / `T_G_Bs` vectors.  The point clouds produced by the external
stereo collaborator are abstracted by a function `recon : Nat → P` giving
the point cloud that `stereo.addFrame` writes for frame `i`.
-/

/-- One fusion/compositing/publish pass of the incremental demo: the frame
whose reconstruction triggered the pass, the point cloud handed to
`digital_surface_map.process`, and the window of frames handed to
`mosaic.process`. -/
structure Pass (P : Type) where
  reconFrame : Nat
  fusedPoints : P
  composited : List Nat
deriving DecidableEq

/-- The state of the incremental demo's main loop: the window buffers
(`images_subset` / `T_G_Bs_subset`, as the list of accumulated frame
indices), the `skip` counter, the `pcl_cnt` pass-guard counter, plus the
recorded history of reconstruction calls (`stereo.addFrame`), completed
passes, and `map.publishOnce` calls. -/
structure IncState (P : Type) where
  subset : List Nat
  skip : Nat
  pcl_cnt : Nat
  recons : List Nat
  passes : List (Pass P)
  pubs : Nat
deriving DecidableEq

/-- One iteration of the incremental demo's `for` loop over frame `i`
(`main-ortho-backward-grid-incremental.cc`, lines 155-178): push the frame
onto the window buffers, and if the incremented `skip` counter is a multiple
of the stride `N`, reconstruct; if moreover `pcl_cnt > 0`, fuse the new
point cloud, composite the window, publish once and clear the window. -/
def consumeFrame (N : Nat) (recon : Nat → P) (s : IncState P) (i : Nat) : IncState P :=
  let subset := s.subset ++ [i]
  if (s.skip + 1) % N = 0 then
    let point_cloud := recon i
    if 0 < s.pcl_cnt then
      ⟨[], s.skip + 1, s.pcl_cnt + 1, s.recons ++ [i],
        s.passes ++ [⟨i, point_cloud, subset⟩], s.pubs + 1⟩
    else
      ⟨subset, s.skip + 1, s.pcl_cnt + 1, s.recons ++ [i], s.passes, s.pubs⟩
  else
    ⟨subset, s.skip + 1, s.pcl_cnt, s.recons, s.passes, s.pubs⟩

/-- Initial loop state: empty window buffers, `skip = 0`, `pcl_cnt = 0`. -/
def incInit (P : Type) : IncState P :=
  ⟨[], 0, 0, [], [], 0⟩

/-- The state of the incremental demo after consuming frames `0, …, n-1`
with stride `N`. -/
def incState (N : Nat) (recon : Nat → P) (n : Nat) : IncState P :=
  (List.range n).foldl (consumeFrame N recon) (incInit P)

/-- The incremental demo's `main`: run the loop over all `n` frames and
return 0 (the loop has no failure exit). -/
def incrementalMain (N : Nat) (recon : Nat → P) (n : Nat) : IncState P × Nat :=
  (incState N recon n, 0)

theorem incState_succ (N : Nat) (recon : Nat → P) (n : Nat) :
    incState N recon (n + 1) = consumeFrame N recon (incState N recon n) n := by
  simp [incState, List.range_succ]

/-- Closed form of the `k`-th (0-based) completed pass with stride `N`:
it is triggered by frame `N*(k+2) - 1`, fuses that frame's fresh point
cloud, and composites the window accumulated since the previous pass —
frames `0, …, 2N-1` for the first pass (the window is not cleared at the
skipped first trigger), frames `N*(k+1), …, N*(k+2)-1` afterwards. -/
def passSpec (N : Nat) (recon : Nat → P) (k : Nat) : Pass P :=
  ⟨N * (k + 1) + (N - 1), recon (N * (k + 1) + (N - 1)),
    if k = 0 then List.range (2 * N) else (List.range N).map (· + N * (k + 1))⟩

/-- Closed form of the window buffer contents after consuming `n` frames:
until the second trigger the buffer has never been cleared and holds all
frames so far; afterwards it holds the frames since the last trigger. -/
def subsetSpec (N n : Nat) : List Nat :=
  if n / N ≤ 1 then List.range n
  else (List.range (n - N * (n / N))).map (· + N * (n / N))

/-- Closed form of the whole loop state after consuming `n` frames with
stride `N`: there have been `n / N` reconstruction triggers, at frames
`N*(j+1) - 1`, and `n / N - 1` completed passes. -/
def incSpecState (N : Nat) (recon : Nat → P) (n : Nat) : IncState P :=
  ⟨subsetSpec N n, n, n / N,
    (List.range (n / N)).map (fun j => N * j + (N - 1)),
    (List.range (n / N - 1)).map (passSpec N recon),
    n / N - 1⟩

theorem map_range_push (f : Nat → α) (k : Nat) :
    (List.range k).map f ++ [f k] = (List.range (k + 1)).map f := by
  rw [List.range_succ, List.map_append]
  rfl

theorem succ_div_of_mod_ne (N n : Nat) (h : (n + 1) % N ≠ 0) :
    (n + 1) / N = n / N := by
  rw [Nat.succ_div]
  simp [Nat.dvd_iff_mod_eq_zero, h]

theorem succ_div_of_mod_eq (N n : Nat) (h : (n + 1) % N = 0) :
    (n + 1) / N = n / N + 1 := by
  rw [Nat.succ_div]
  simp [Nat.dvd_iff_mod_eq_zero, h]

theorem eq_of_succ_mod_eq (N n : Nat) (hN : 0 < N) (h : (n + 1) % N = 0) :
    n = N * (n / N) + (N - 1) := by
  have hdvd : N ∣ n + 1 := Nat.dvd_iff_mod_eq_zero.mpr h
  have h1 : N * ((n + 1) / N) = n + 1 := Nat.mul_div_cancel' hdvd
  rw [succ_div_of_mod_eq N n h] at h1
  have h2 : N * (n / N) + N = n + 1 := by
    rw [← h1]; ring
  omega

theorem subsetSpec_push_of_no_trigger (N n : Nat) (h : (n + 1) / N = n / N) :
    subsetSpec N n ++ [n] = subsetSpec N (n + 1) := by
  simp only [subsetSpec, h]
  by_cases hq : n / N ≤ 1
  · rw [if_pos hq, if_pos hq, List.range_succ]
  · rw [if_neg hq, if_neg hq]
    have hc : N * (n / N) ≤ n := by
      rw [Nat.mul_comm]
      exact Nat.div_mul_le_self n N
    have hpush : n = (n - N * (n / N)) + N * (n / N) := by omega
    calc (List.range (n - N * (n / N))).map (· + N * (n / N)) ++ [n]
        = (List.range (n - N * (n / N))).map (· + N * (n / N)) ++
          [(n - N * (n / N)) + N * (n / N)] := by rw [← hpush]
      _ = (List.range ((n - N * (n / N)) + 1)).map (· + N * (n / N)) := by
          rw [map_range_push]
      _ = (List.range ((n + 1) - N * (n / N))).map (· + N * (n / N)) := by
          congr 2
          omega

/-- Master characterization of the incremental loop: after consuming `n`
frames with stride `N ≥ 1` the loop state equals its closed form. -/
theorem incState_eq (N : Nat) (recon : Nat → P) (hN : 0 < N) (n : Nat) :
    incState N recon n = incSpecState N recon n := by
  induction n with
  | zero =>
    simp [incState, incSpecState, subsetSpec, incInit]
  | succ n ih =>
    rw [incState_succ, ih]
    by_cases h : (n + 1) % N = 0
    · have hdiv : (n + 1) / N = n / N + 1 := succ_div_of_mod_eq N n h
      have hn : n = N * (n / N) + (N - 1) := eq_of_succ_mod_eq N n hN h
      rcases Nat.eq_zero_or_pos (n / N) with hm | hm
      · -- first trigger: n = N - 1, no pass
        have hn0 : n = N - 1 := by
          rw [hm, Nat.mul_zero] at hn
          omega
        simp only [consumeFrame, incSpecState, hm]
        rw [if_pos h, if_neg (lt_irrefl 0)]
        simp only [IncState.mk.injEq, hdiv, hm]
        refine ⟨?_, by trivial, by trivial, ?_, ?_, by trivial⟩
        · -- subset
          simp only [subsetSpec, hdiv, hm]
          rw [if_pos (by omega), if_pos (by omega), List.range_succ]
        · -- recons
          simp [hn0, List.range_succ]
        · -- passes
          simp
      · -- later trigger: pcl_cnt = n / N > 0, so a pass happens
        simp only [consumeFrame, incSpecState]
        rw [if_pos h, if_pos hm]
        simp only [IncState.mk.injEq, hdiv]
        refine ⟨?_, by trivial, by trivial, ?_, ?_, by omega⟩
        · -- subset is cleared; at n + 1 the spec window is empty
          simp only [subsetSpec, hdiv]
          rw [if_neg (by omega : ¬ n / N + 1 ≤ 1)]
          have hz : (n + 1) - N * (n / N + 1) = 0 := by
            rw [Nat.mul_succ]
            omega
          rw [hz]
          simp
        · -- recons
          have he : n = N * (n / N) + (N - 1) := hn
          calc (List.range (n / N)).map (fun j => N * j + (N - 1)) ++ [n]
              = (List.range (n / N)).map (fun j => N * j + (N - 1)) ++
                [N * (n / N) + (N - 1)] := by rw [← he]
            _ = (List.range (n / N + 1)).map (fun j => N * j + (N - 1)) :=
                map_range_push _ _
        · -- passes
          have hps : passSpec N recon (n / N - 1) =
              ⟨n, recon n, subsetSpec N n ++ [n]⟩ := by
            rcases Nat.lt_or_ge (n / N) 2 with h1 | h2
            · -- second trigger: the window has never been cleared
              have hq : n / N = 1 := by omega
              have hn1 : n = N * 1 + (N - 1) := by
                have hn' := hn
                rw [hq] at hn'
                exact hn'
              have h2N : n + 1 = 2 * N := by omega
              have hz : n / N - 1 = 0 := by omega
              rw [hz]
              simp only [passSpec, if_pos rfl, subsetSpec]
              have hfr : N * (0 + 1) + (N - 1) = n := by omega
              rw [hfr, if_pos (le_of_eq hq)]
              have hr : List.range n ++ [n] = List.range (2 * N) := by
                rw [← List.range_succ]
                congr 1
              rw [hr]
              simp
            · -- third or later trigger: the window is the last N - 1 frames
              have hq2 : 2 ≤ n / N := h2
              have hk : ¬ n / N - 1 = 0 := by omega
              have he2 : n / N - 1 + 1 = n / N := by omega
              simp only [passSpec, if_neg hk, he2, subsetSpec]
              have he3 : N * (n / N) + (N - 1) = n := hn.symm
              rw [he3, if_neg (by omega : ¬ n / N ≤ 1)]
              have hsub : n - N * (n / N) = N - 1 := by omega
              rw [hsub]
              have hstep : (List.range N).map (· + N * (n / N)) =
                  (List.range (N - 1)).map (· + N * (n / N)) ++ [n] := by
                have hN1 : N = (N - 1) + 1 := by omega
                calc (List.range N).map (· + N * (n / N))
                    = (List.range ((N - 1) + 1)).map (· + N * (n / N)) := by
                      rw [← hN1]
                  _ = (List.range (N - 1)).map (· + N * (n / N)) ++
                      [(N - 1) + N * (n / N)] := (map_range_push _ _).symm
                  _ = (List.range (N - 1)).map (· + N * (n / N)) ++ [n] := by
                      congr 2
                      omega
              rw [hstep]
          rw [← hps]
          have hrw : n / N + 1 - 1 = (n / N - 1) + 1 := by omega
          rw [hrw, ← map_range_push]
    · have hdiv : (n + 1) / N = n / N := succ_div_of_mod_ne N n h
      simp only [consumeFrame, incSpecState]
      rw [if_neg h]
      simp only [IncState.mk.injEq, hdiv]
      exact ⟨subsetSpec_push_of_no_trigger N n hdiv, by trivial, by trivial,
        by trivial, by trivial, by trivial⟩

theorem flatten_passSpec_composited (N : Nat) (recon : Nat → P) (t : Nat) (ht : 1 ≤ t) :
    (((List.range t).map (passSpec N recon)).map Pass.composited).flatten
      = List.range (N * (t + 1)) := by
  induction t with
  | zero => omega
  | succ t ih =>
    rcases Nat.eq_zero_or_pos t with h0 | h1
    · subst h0
      have h1 : List.range 1 = [0] := rfl
      simp [h1, passSpec, Nat.mul_comm]
    · rw [List.range_succ, List.map_append, List.map_append, List.flatten_append, ih h1]
      have hcomp : (passSpec N recon t).composited = (List.range N).map (· + N * (t + 1)) := by
        simp only [passSpec]
        rw [if_neg (by omega : ¬ t = 0)]
      simp only [List.map_cons, List.map_nil, List.flatten_cons, List.flatten_nil,
        List.append_nil, hcomp]
      have hmul : N * (t + 1 + 1) = N * (t + 1) + N := by ring
      rw [hmul, List.range_add]
      congr 1
      exact List.map_congr_left (fun x hx => Nat.add_comm x (N * (t + 1)))

theorem flatten_composited_incState (N : Nat) (recon : Nat → P) (hN : 0 < N) (n : Nat) :
    ((incState N recon n).passes.map Pass.composited).flatten =
      if n / N ≤ 1 then [] else List.range (N * (n / N)) := by
  rw [incState_eq N recon hN n]
  simp only [incSpecState]
  by_cases hq : n / N ≤ 1
  · rw [if_pos hq]
    have hz : n / N - 1 = 0 := by omega
    rw [hz]
    simp
  · rw [if_neg hq]
    have ht : 1 ≤ n / N - 1 := by omega
    rw [flatten_passSpec_composited N recon _ ht,
      show n / N - 1 + 1 = n / N from by omega]

/-- The frames handed to `mosaic.process` across all passes, followed by the
frames still pending in the window buffer, are exactly the consumed frames in
order: no frame is dropped from, duplicated in, or reordered through the
window mechanism. -/
theorem composited_partition (N : Nat) (recon : Nat → P) (hN : 0 < N) (n : Nat) :
    ((incState N recon n).passes.map Pass.composited).flatten ++ (incState N recon n).subset
      = List.range n := by
  rw [flatten_composited_incState N recon hN n, incState_eq N recon hN n]
  simp only [incSpecState, subsetSpec]
  by_cases hq : n / N ≤ 1
  · rw [if_pos hq, if_pos hq]
    simp
  · rw [if_neg hq, if_neg hq]
    have hc : N * (n / N) ≤ n := by
      rw [Nat.mul_comm]
      exact Nat.div_mul_le_self n N
    conv_rhs => rw [show n = N * (n / N) + (n - N * (n / N)) from by omega]
    rw [List.range_add]
    congr 1
    exact List.map_congr_left (fun x hx => Nat.add_comm x (N * (n / N)))

theorem recons_incState (N : Nat) (recon : Nat → P) (hN : 0 < N) (n : Nat) :
    (incState N recon n).recons = (List.range (n / N)).map (fun j => N * j + (N - 1)) := by
  rw [incState_eq N recon hN n]
  rfl

theorem passes_reconFrame_incState (N : Nat) (recon : Nat → P) (hN : 0 < N) (n : Nat) :
    (incState N recon n).passes.map Pass.reconFrame =
      (List.range (n / N - 1)).map (fun k => N * (k + 1) + (N - 1)) := by
  rw [incState_eq N recon hN n]
  simp only [incSpecState, List.map_map]
  exact List.map_congr_left (fun k hk => rfl)

theorem passes_fusedPoints_incState (N : Nat) (recon : Nat → P) (hN : 0 < N) (n : Nat) :
    (incState N recon n).passes.map Pass.fusedPoints =
      ((incState N recon n).passes.map Pass.reconFrame).map recon := by
  rw [incState_eq N recon hN n]
  simp only [incSpecState, List.map_map]
  exact List.map_congr_left (fun k hk => rfl)

theorem map_range_drop_one (N m : Nat) :
    ((List.range m).map (fun j => N * j + (N - 1))).drop 1
      = (List.range (m - 1)).map (fun k => N * (k + 1) + (N - 1)) := by
  cases m with
  | zero => simp
  | succ m =>
    rw [List.range_succ_eq_map]
    simp only [List.map_cons, List.drop_succ_cons, List.drop_zero, List.map_map,
      Nat.add_sub_cancel]
    exact List.map_congr_left (fun k hk => rfl)

theorem mem_recons_iff (N : Nat) (recon : Nat → P) (hN : 0 < N) (n i : Nat) :
    i ∈ (incState N recon n).recons ↔ ((i + 1) % N = 0 ∧ i < n) := by
  rw [recons_incState N recon hN n]
  simp only [List.mem_map, List.mem_range]
  constructor
  · rintro ⟨j, hj, rfl⟩
    constructor
    · have hstep : N * j + (N - 1) + 1 = N * (j + 1) := by
        rw [Nat.mul_succ]
        omega
      rw [hstep]
      exact Nat.mul_mod_right N (j + 1)
    · have h1 : j + 1 ≤ n / N := hj
      have h2 : N * (j + 1) ≤ N * (n / N) := Nat.mul_le_mul_left N h1
      have h3 : N * (n / N) ≤ n := by
        rw [Nat.mul_comm]
        exact Nat.div_mul_le_self n N
      rw [Nat.mul_succ] at h2
      omega
  · rintro ⟨hmod, hlt⟩
    have hdvd : N ∣ i + 1 := Nat.dvd_iff_mod_eq_zero.mpr hmod
    obtain ⟨q, hq⟩ := hdvd
    obtain ⟨q', rfl⟩ : ∃ q', q = q' + 1 := by
      refine ⟨q - 1, ?_⟩
      rcases Nat.eq_zero_or_pos q with h0 | h1
      · rw [h0, Nat.mul_zero] at hq
        omega
      · omega
    rw [Nat.mul_succ] at hq
    refine ⟨q', ?_, by omega⟩
    have hle : q' + 1 ≤ n / N := by
      rw [Nat.le_div_iff_mul_le hN, Nat.mul_comm]
      rw [Nat.mul_succ]
      omega
    omega

theorem passes_reconFrame_pairwise (N : Nat) (recon : Nat → P) (hN : 0 < N) (n : Nat) :
    ((incState N recon n).passes.map Pass.reconFrame).Pairwise (· < ·) := by
  rw [passes_reconFrame_incState N recon hN n]
  refine List.pairwise_map.mpr ((List.pairwise_lt_range _).imp ?_)
  intro a b hab
  have hmul : N * (a + 1) < N * (b + 1) :=
    mul_lt_mul_of_pos_left (by omega) hN
  omega

/-- Pose-file formats named by the incremental demo's pose-format flag
(its documented options: Standard, StandardNamed, COLMAP, PIX4D, ROS). -/
inductive PoseFormat
  | Standard
  | StandardNamed
  | COLMAP
  | PIX4D
  | ROS
deriving DecidableEq

/-- Modelled from the spec: `io::to_format` (in the aerial_mapper_io
collaborator, outside this tree) maps the pose-format option string to the
named pose-file format; the flag documents the options Standard,
StandardNamed, COLMAP, PIX4D and ROS (an unrecognized string is treated as
the default, Standard). -/
def to_format (s : String) : PoseFormat :=
  if s = "StandardNamed" then .StandardNamed
  else if s = "COLMAP" then .COLMAP
  else if s = "PIX4D" then .PIX4D
  else if s = "ROS" then .ROS
  else .Standard

/-- The command-line flags of the batch demo (`main-ortho-backward-grid.cc`,
lines 20-62).  The double-valued flags are only plumbed, never computed
with, and are modelled as Int; the stride flag is modelled as Nat.  Note
there is no pose-format flag in this binary. -/
structure BatchConfig where
  backward_grid_data_directory : String
  backward_grid_filename_poses : String
  backward_grid_prefix_images : String
  backward_grid_filename_camera_rig : String
  backward_grid_center_easting : Int
  backward_grid_center_northing : Int
  backward_grid_delta_easting : Int
  backward_grid_delta_northing : Int
  backward_grid_resolution : Int
  backward_grid_show_orthomosaic_opencv : Bool
  backward_grid_save_orthomosaic_jpg : Bool
  backward_grid_orthomosaic_jpg_filename : String
  backward_grid_orthomosaic_elevation_m : Int
  backward_grid_use_digital_elevation_map : Bool
  point_cloud_filename : String
  dense_pcl_use_every_nth_image : Nat
  use_BM : Bool
  load_point_cloud_from_file : Bool
deriving DecidableEq

/-- The collaborator invocations the batch demo's `main` makes, in order. -/
inductive BatchEvent
  | loadCameraRig (path : String)
  | loadPoses (format : PoseFormat) (path : String)
  | loadImages (path : String)
  | loadPointCloudFromFile (path : String)
  | denseReconstruction (use_every_nth_image : Nat) (use_BM : Bool)
  | fuseDsm
  | compositeOrtho
  | publishOnce
  | publishUntilShutdown
deriving DecidableEq

/-- The batch demo's `main` (`main-ortho-backward-grid.cc`, lines 66-146),
as the ordered trace of collaborator invocations plus the fatal `CHECK`
failure message, if any (a failed `CHECK` aborts the process at that
point, so the trace stops there).  The camera rig, poses (hardcoded
`io::PoseFormat::Standard`) and images are loaded; then the point cloud is
either loaded from file — after `CHECK(!FLAGS_point_cloud_filename.empty())`
— or produced by dense reconstruction from the poses and images; then the
DSM is fused (`digital_surface_map.process`), the orthomosaic composited
(`mosaic.process`), and the map published until shutdown. -/
def batchMain (cfg : BatchConfig) : List BatchEvent × Option String :=
  let base := cfg.backward_grid_data_directory
  let loads : List BatchEvent :=
    [.loadCameraRig (base ++ cfg.backward_grid_filename_camera_rig),
      .loadPoses .Standard (base ++ cfg.backward_grid_filename_poses),
      .loadImages (base ++ cfg.backward_grid_prefix_images)]
  if cfg.load_point_cloud_from_file then
    if cfg.point_cloud_filename = "" then
      (loads, some "CHECK failed: !FLAGS_point_cloud_filename.empty()")
    else
      (loads ++ [.loadPointCloudFromFile cfg.point_cloud_filename,
        .fuseDsm, .compositeOrtho, .publishUntilShutdown], none)
  else
    (loads ++ [.denseReconstruction cfg.dense_pcl_use_every_nth_image cfg.use_BM,
      .fuseDsm, .compositeOrtho, .publishUntilShutdown], none)

/-- Publisher invocations among the batch events. -/
def isPublishInvocation : BatchEvent → Bool
  | .publishOnce => true
  | .publishUntilShutdown => true
  | _ => false

/-- Pose-loading invocations among the batch events. -/
def isPoseLoad : BatchEvent → Bool
  | .loadPoses _ _ => true
  | _ => false

/-- Modelled from the spec: the number of raster snapshots one publisher
invocation emits (the publisher collaborator supports a publish-once mode
and a publish-repeatedly-until-externally-stopped mode); `stopAfter` is
the number of additional republications before the external stop arrives. -/
def publishedSnapshots (stopAfter : Nat) : BatchEvent → Nat
  | .publishOnce => 1
  | .publishUntilShutdown => 1 + stopAfter
  | _ => 0

/-- Total raster snapshots published over a trace, given the external stop
behavior. -/
def totalPublished (stopAfter : Nat) (tr : List BatchEvent) : Nat :=
  (tr.map (publishedSnapshots stopAfter)).sum

/-- The fields of `ortho::Settings` assigned by the two demos (the external
header's remaining fields and their defaults stand behind the incoming
settings value). Doubles are modelled as Int, as in `BatchConfig`. -/
structure OrthoSettings where
  show_orthomosaic_opencv : Bool
  save_orthomosaic_jpg : Bool
  orthomosaic_jpg_filename : String
  orthomosaic_elevation_m : Int
  use_digital_elevation_map : Bool
  colored_ortho : Bool
  use_multi_threads : Bool
deriving DecidableEq

/-- `parseSettingsOrtho` of the batch demo (`main-ortho-backward-grid.cc`,
lines 148-159): assigns exactly the display, JPEG-export, flat-elevation
and elevation-mode fields from the flags, leaving every other field of the
passed-in (default-constructed) settings untouched. -/
def parseSettingsOrtho (cfg : BatchConfig) (settings_ortho : OrthoSettings) : OrthoSettings :=
  { settings_ortho with
    show_orthomosaic_opencv := cfg.backward_grid_show_orthomosaic_opencv
    save_orthomosaic_jpg := cfg.backward_grid_save_orthomosaic_jpg
    orthomosaic_jpg_filename := cfg.backward_grid_orthomosaic_jpg_filename
    orthomosaic_elevation_m := cfg.backward_grid_orthomosaic_elevation_m
    use_digital_elevation_map := cfg.backward_grid_use_digital_elevation_map }

/-- The command-line flags of the incremental demo
(`main-ortho-backward-grid-incremental.cc`, lines 20-66). -/
structure IncConfig where
  backward_grid_data_directory : String
  backward_grid_filename_poses : String
  backward_grid_pose_format : String
  backward_grid_prefix_images : String
  backward_grid_show_images : Bool
  backward_grid_filename_camera_rig : String
  backward_grid_center_easting : Int
  backward_grid_center_northing : Int
  backward_grid_delta_easting : Int
  backward_grid_delta_northing : Int
  backward_grid_resolution : Int
  backward_grid_show_orthomosaic_opencv : Bool
  backward_grid_save_orthomosaic_jpg : Bool
  backward_grid_orthomosaic_jpg_filename : String
  backward_grid_orthomosaic_elevation_m : Int
  backward_grid_use_digital_elevation_map : Bool
  point_cloud_filename : String
  dense_pcl_use_every_nth_image : Nat
  backward_grid_colored_ortho : Bool
  backward_grid_use_multi_threads : Bool
  use_BM : Bool
deriving DecidableEq

/-- The incremental demo's pose-loading invocation
(`main-ortho-backward-grid-incremental.cc`, lines 90-95): the format is
`io::to_format(FLAGS_backward_grid_pose_format)`. -/
def incPoseLoad (icfg : IncConfig) : BatchEvent :=
  .loadPoses (to_format icfg.backward_grid_pose_format)
    (icfg.backward_grid_data_directory ++ icfg.backward_grid_filename_poses)

/-- The incremental demo's orthomosaic settings assembly (lines 135-147):
seven fields assigned from flags, among them color mode and threading. -/
def incSettingsOrtho (icfg : IncConfig) (settings_ortho : OrthoSettings) : OrthoSettings :=
  { settings_ortho with
    show_orthomosaic_opencv := icfg.backward_grid_show_orthomosaic_opencv
    save_orthomosaic_jpg := icfg.backward_grid_save_orthomosaic_jpg
    orthomosaic_jpg_filename := icfg.backward_grid_orthomosaic_jpg_filename
    orthomosaic_elevation_m := icfg.backward_grid_orthomosaic_elevation_m
    use_digital_elevation_map := icfg.backward_grid_use_digital_elevation_map
    colored_ortho := icfg.backward_grid_colored_ortho
    use_multi_threads := icfg.backward_grid_use_multi_threads }

/-- The batch flags at their declared default values. -/
def batchDefaults : BatchConfig :=
  ⟨"", "", "", "", 0, 0, 100, 100, 1, true, true, "", 0, true, "", 10, true, false⟩

/-- A batch configuration selecting load-from-file but leaving the
point-cloud filename empty. -/
def batchLoadEmptyName : BatchConfig :=
  ⟨"", "", "", "", 0, 0, 100, 100, 1, true, true, "", 0, true, "", 10, true, true⟩

/-- A concrete stand-in for the stereo collaborator's per-frame output,
used to instantiate the generic theorems. -/
def recon0 : Nat → Nat := fun i => i

/-- C1: in incremental mode the first completed window is reconstructed
(`stereo.addFrame` runs at frame N-1) but triggers no
fusion/compositing/publish pass; for every input with at least two
completed windows the `pcl_cnt` guard skips exactly the first trigger:
the pass triggers are the reconstruction triggers with the first removed,
the first trigger is never a pass trigger, and there is exactly one pass
fewer than there are reconstruction triggers. -/
theorem first_window_skipped (recon : Nat → P) (N n : Nat)
    (hN : 0 < N) (h2 : 2 ≤ n / N) :
    (incState N recon n).passes.map Pass.reconFrame = (incState N recon n).recons.drop 1
    ∧ (N - 1) ∈ (incState N recon n).recons
    ∧ (N - 1) ∉ (incState N recon n).passes.map Pass.reconFrame
    ∧ (incState N recon n).passes.length + 1 = (incState N recon n).recons.length := by
  refine ⟨?_, ?_, ?_, ?_⟩
  · rw [passes_reconFrame_incState N recon hN n, recons_incState N recon hN n,
      map_range_drop_one]
  · rw [recons_incState N recon hN n]
    refine List.mem_map.mpr ⟨0, ?_, by simp⟩
    rw [List.mem_range]
    omega
  · rw [passes_reconFrame_incState N recon hN n]
    intro hmem
    obtain ⟨k, hk, heq⟩ := List.mem_map.mp hmem
    have hge : N * 1 ≤ N * (k + 1) := Nat.mul_le_mul_left N (by omega)
    rw [Nat.mul_one] at hge
    omega
  · rw [incState_eq N recon hN n]
    simp only [incSpecState, List.length_map, List.length_range]
    omega

theorem first_window_skipped_witness :
    0 < 2 ∧ 2 ≤ 4 / 2 ∧
    ((incState 2 recon0 4).passes.map Pass.reconFrame = (incState 2 recon0 4).recons.drop 1
    ∧ (2 - 1) ∈ (incState 2 recon0 4).recons
    ∧ (2 - 1) ∉ (incState 2 recon0 4).passes.map Pass.reconFrame
    ∧ (incState 2 recon0 4).passes.length + 1 = (incState 2 recon0 4).recons.length) :=
  ⟨by decide, by decide, first_window_skipped recon0 2 4 (by decide) (by decide)⟩

/-- C2: every fusion/compositing pass is invoked with exactly the ordered
frames accumulated since the previous pass — the composited windows,
concatenated in pass order and followed by the still-pending buffer,
reproduce the consumed frame sequence exactly (so no frame from an
earlier pass is ever passed to the compositor again: the concatenation has
no duplicates) — and the window buffer is left empty by a pass (whenever
consuming frame m completes a pass, the buffer after frame m is empty). -/
theorem window_drained (recon : Nat → P) (N n m : Nat) (hN : 0 < N)
    (hpass : (incState N recon (m + 1)).passes.length ≠ (incState N recon m).passes.length) :
    ((incState N recon n).passes.map Pass.composited).flatten ++ (incState N recon n).subset
        = List.range n
    ∧ (((incState N recon n).passes.map Pass.composited).flatten).Nodup
    ∧ (incState N recon (m + 1)).subset = [] := by
  refine ⟨composited_partition N recon hN n, ?_, ?_⟩
  · rw [flatten_composited_incState N recon hN n]
    by_cases hq : n / N ≤ 1
    · rw [if_pos hq]
      exact List.nodup_nil
    · rw [if_neg hq]
      exact List.nodup_range _
  · rw [incState_succ] at hpass ⊢
    simp only [consumeFrame] at hpass ⊢
    by_cases h : ((incState N recon m).skip + 1) % N = 0
    · rw [if_pos h] at hpass ⊢
      by_cases hc : 0 < (incState N recon m).pcl_cnt
      · rw [if_pos hc]
      · rw [if_neg hc] at hpass
        simp at hpass
    · rw [if_neg h] at hpass
      simp at hpass

theorem window_drained_witness :
    0 < 2 ∧
    (incState 2 recon0 4).passes.length ≠ (incState 2 recon0 3).passes.length ∧
    (((incState 2 recon0 5).passes.map Pass.composited).flatten ++ (incState 2 recon0 5).subset
        = List.range 5
    ∧ (((incState 2 recon0 5).passes.map Pass.composited).flatten).Nodup
    ∧ (incState 2 recon0 4).subset = []) :=
  ⟨by decide, by decide, window_drained recon0 2 5 3 (by decide) (by decide)⟩

/-- C3 (counterexample): with stride/window size 5 and 12 input frames the
incremental demo performs exactly one fusion/compositing/publish pass,
refuting the claimed two. -/
theorem scenario_b_single_pass :
    (incState 5 recon0 12).passes.length = 1
    ∧ ¬ ((incState 5 recon0 12).passes.length = 2) := by
  decide

/-- C3 (amended): with stride/window size 5 and 12 input frames exactly one
fusion/compositing/publish pass occurs (passes list of length 1, one
publish); it is triggered at frame index 9 and composites frames 0-9; the
two tail frames (indices 10 and 11) stay in the buffer unprocessed; and
the first window's reconstruction (the trigger at frame index 4) is
recorded but never fused (the only fused cloud is the one of frame 9). -/
theorem scenario_b (recon : Nat → P) :
    incState 5 recon 12 =
      ⟨[10, 11], 12, 2, [4, 9], [⟨9, recon 9, List.range 10⟩], 1⟩ := by
  rw [incState_eq 5 recon (by omega) 12]
  rfl

/-- C4: when end-of-input arrives while the window buffer holds fewer
frames than the stride/window size, those pending frames were never given
to `stereo.addFrame` and belong to no pass's composited window — no
reconstruction, fusion, compositing or publish happened for them — and
the run still returns 0 (normal termination). -/
theorem tail_discarded (recon : Nat → P) (N n : Nat) (hN : 0 < N)
    (hlt : (incState N recon n).subset.length < N) :
    (incState N recon n).subset.Disjoint (incState N recon n).recons
    ∧ (incState N recon n).subset.Disjoint
        ((incState N recon n).passes.map Pass.composited).flatten
    ∧ (incrementalMain N recon n).2 = 0 := by
  by_cases hq : n / N ≤ 1
  · have hlen : (incState N recon n).subset.length = n := by
      rw [incState_eq N recon hN n]
      simp only [incSpecState, subsetSpec, if_pos hq]
      exact List.length_range n
    have hn : n < N := by omega
    have hq0 : n / N = 0 := Nat.div_eq_of_lt hn
    refine ⟨?_, ?_, rfl⟩
    · rw [recons_incState N recon hN n, hq0]
      simp [List.Disjoint]
    · rw [flatten_composited_incState N recon hN n, if_pos hq]
      simp [List.Disjoint]
  · have hge : ∀ i ∈ (incState N recon n).subset, N * (n / N) ≤ i := by
      rw [incState_eq N recon hN n]
      simp only [incSpecState, subsetSpec, if_neg hq]
      intro i hi
      obtain ⟨x, hx, rfl⟩ := List.mem_map.mp hi
      omega
    refine ⟨?_, ?_, rfl⟩
    · intro i hi hir
      have h1 := hge i hi
      rw [recons_incState N recon hN n] at hir
      obtain ⟨j, hj, rfl⟩ := List.mem_map.mp hir
      rw [List.mem_range] at hj
      have h2 : N * (j + 1) ≤ N * (n / N) := Nat.mul_le_mul_left N (by omega)
      rw [Nat.mul_succ] at h2
      omega
    · intro i hi hic
      have h1 := hge i hi
      rw [flatten_composited_incState N recon hN n, if_neg hq] at hic
      rw [List.mem_range] at hic
      omega

theorem tail_discarded_witness :
    0 < 5 ∧ (incState 5 recon0 3).subset.length < 5 ∧
    ((incState 5 recon0 3).subset.Disjoint (incState 5 recon0 3).recons
    ∧ (incState 5 recon0 3).subset.Disjoint
        ((incState 5 recon0 3).passes.map Pass.composited).flatten
    ∧ (incrementalMain 5 recon0 3).2 = 0) :=
  ⟨by decide, by decide, tail_discarded recon0 5 3 (by decide) (by decide)⟩

/-- C6: the fused point clouds across the incremental run are exactly the
reconstructions of each pass's own trigger frame (each
`digital_surface_map.process` call receives the point cloud that
`stereo.addFrame` just produced in the current pass), and the trigger
frames are strictly increasing across passes, so a point cloud produced
for an earlier pass is never supplied to the fuser again. -/
theorem fuser_gets_fresh_points (recon : Nat → P) (N n : Nat) (hN : 0 < N) :
    (incState N recon n).passes.map Pass.fusedPoints
        = ((incState N recon n).passes.map Pass.reconFrame).map recon
    ∧ ((incState N recon n).passes.map Pass.reconFrame).Pairwise (· < ·) :=
  ⟨passes_fusedPoints_incState N recon hN n, passes_reconFrame_pairwise N recon hN n⟩

theorem fuser_gets_fresh_points_witness :
    0 < 1 ∧
    ((incState 1 recon0 3).passes.map Pass.fusedPoints
        = ((incState 1 recon0 3).passes.map Pass.reconFrame).map recon0
    ∧ ((incState 1 recon0 3).passes.map Pass.reconFrame).Pairwise (· < ·)) :=
  ⟨by decide, fuser_gets_fresh_points recon0 1 3 (by decide)⟩

/-- C7: a frame is handed to `stereo.addFrame` exactly when its 1-based
position in the consumed stream is a multiple of the stride N, while every
consumed frame — the strided-out ones included — is retained for the
compositing stage: the composited windows plus the pending buffer
reproduce the full frame sequence in order. -/
theorem stride_selects_recon (recon : Nat → P) (N n i : Nat) (hN : 0 < N) :
    (i ∈ (incState N recon n).recons ↔ ((i + 1) % N = 0 ∧ i < n))
    ∧ ((incState N recon n).passes.map Pass.composited).flatten ++ (incState N recon n).subset
        = List.range n :=
  ⟨mem_recons_iff N recon hN n i, composited_partition N recon hN n⟩

theorem stride_selects_recon_witness :
    0 < 2 ∧
    ((3 ∈ (incState 2 recon0 5).recons ↔ ((3 + 1) % 2 = 0 ∧ 3 < 5))
    ∧ ((incState 2 recon0 5).passes.map Pass.composited).flatten ++ (incState 2 recon0 5).subset
        = List.range 5) :=
  ⟨by decide, stride_selects_recon recon0 2 5 3 (by decide)⟩

/-- C5 (counterexample): the batch demo's publishing call is
`map.publishUntilShutdown()`, not a one-shot publish: with the default
flags, if the external stop arrives only after one extra republication the
raster has been published twice — not exactly once — and no publish-once
invocation occurs anywhere in the run. -/
theorem batch_publish_not_once :
    totalPublished 1 (batchMain batchDefaults).1 = 2
    ∧ ¬ (totalPublished 1 (batchMain batchDefaults).1 = 1)
    ∧ BatchEvent.publishOnce ∉ (batchMain batchDefaults).1 := by
  decide

/-- C5 (amended): in batch mode, for every configuration that does not hit
the fatal CHECK, there is exactly one publishing invocation; it comes
after loading, point-cloud production, fusion and compositing have all
completed over the entire input (the trace ends with fuse, composite,
publish); and it is the publish-until-shutdown mode, which republishes the
raster until externally stopped — `1 + stopAfter` snapshots rather than
exactly one — after which the run terminates. -/
theorem batch_publishes_last (cfg : BatchConfig) (stopAfter : Nat)
    (h : (batchMain cfg).2 = none) :
    (batchMain cfg).1.countP isPublishInvocation = 1
    ∧ (batchMain cfg).1.length = 7
    ∧ (batchMain cfg).1.drop 4 =
        [BatchEvent.fuseDsm, BatchEvent.compositeOrtho, BatchEvent.publishUntilShutdown]
    ∧ totalPublished stopAfter (batchMain cfg).1 = 1 + stopAfter := by
  rcases Bool.eq_false_or_eq_true cfg.load_point_cloud_from_file with hl | hl
  · by_cases he : cfg.point_cloud_filename = ""
    · exfalso
      simp [batchMain, hl, he] at h
    · simp [batchMain, hl, he, isPublishInvocation, totalPublished, publishedSnapshots]
  · simp [batchMain, hl, isPublishInvocation, totalPublished, publishedSnapshots]

theorem batch_publishes_last_witness :
    (batchMain batchDefaults).2 = none ∧
    ((batchMain batchDefaults).1.countP isPublishInvocation = 1
    ∧ (batchMain batchDefaults).1.length = 7
    ∧ (batchMain batchDefaults).1.drop 4 =
        [BatchEvent.fuseDsm, BatchEvent.compositeOrtho, BatchEvent.publishUntilShutdown]
    ∧ totalPublished 0 (batchMain batchDefaults).1 = 1 + 0) :=
  ⟨by decide, batch_publishes_last batchDefaults 0 (by decide)⟩

/-- C8: the point-cloud source is decided once by the configuration: the
run aborts fatally exactly when load-from-file is chosen with an empty
point-cloud filename — and then neither the fusion stage nor the
compositing stage has run (they are in the trace exactly when no fatal
abort occurred); the point-cloud file loader runs exactly when
load-from-file is chosen with a nonempty name; dense reconstruction from
the poses and images runs exactly when load-from-file is not chosen. -/
theorem point_cloud_source (cfg : BatchConfig) :
    ((batchMain cfg).2.isSome ↔
      (cfg.load_point_cloud_from_file = true ∧ cfg.point_cloud_filename = ""))
    ∧ ((BatchEvent.loadPointCloudFromFile cfg.point_cloud_filename ∈ (batchMain cfg).1) ↔
      (cfg.load_point_cloud_from_file = true ∧ cfg.point_cloud_filename ≠ ""))
    ∧ ((BatchEvent.denseReconstruction cfg.dense_pcl_use_every_nth_image cfg.use_BM
          ∈ (batchMain cfg).1) ↔ cfg.load_point_cloud_from_file = false)
    ∧ ((BatchEvent.fuseDsm ∈ (batchMain cfg).1 ∧ BatchEvent.compositeOrtho ∈ (batchMain cfg).1)
        ↔ (batchMain cfg).2 = none) := by
  rcases Bool.eq_false_or_eq_true cfg.load_point_cloud_from_file with hl | hl
  · by_cases he : cfg.point_cloud_filename = ""
    · simp [batchMain, hl, he]
    · simp [batchMain, hl, he]
  · simp [batchMain, hl]

/-- C9: the batch demo hardcodes `io::PoseFormat::Standard` — its single
pose-loading invocation uses the Standard format for every configuration
(the batch binary defines no pose-format flag at all) — whereas the
incremental demo's pose loading passes `io::to_format` of its pose-format
option, which selects a different format for other option values, e.g.
PIX4D. -/
theorem batch_pose_format_standard :
    (∀ cfg : BatchConfig, (batchMain cfg).1.filter isPoseLoad =
      [BatchEvent.loadPoses PoseFormat.Standard
        (cfg.backward_grid_data_directory ++ cfg.backward_grid_filename_poses)])
    ∧ (∀ icfg : IncConfig, incPoseLoad icfg =
        BatchEvent.loadPoses (to_format icfg.backward_grid_pose_format)
          (icfg.backward_grid_data_directory ++ icfg.backward_grid_filename_poses))
    ∧ to_format "PIX4D" = PoseFormat.PIX4D
    ∧ PoseFormat.PIX4D ≠ PoseFormat.Standard := by
  refine ⟨?_, fun icfg => rfl, by decide, by decide⟩
  intro cfg
  rcases Bool.eq_false_or_eq_true cfg.load_point_cloud_from_file with hl | hl
  · by_cases he : cfg.point_cloud_filename = ""
    · simp [batchMain, hl, he, isPoseLoad]
    · simp [batchMain, hl, he, isPoseLoad]
  · simp [batchMain, hl, isPoseLoad]

/-- C10: the batch demo's `parseSettingsOrtho` writes exactly the display,
JPEG-export, flat-elevation and elevation-mode fields from the command
line, and leaves the color-mode (`colored_ortho`) and threading
(`use_multi_threads`) fields of the passed-in settings at their incoming
default values, for every configuration — while the incremental demo does
assign both of those from its flags. -/
theorem parse_settings_ortho_fields (cfg : BatchConfig) (icfg : IncConfig)
    (d : OrthoSettings) :
    (parseSettingsOrtho cfg d).colored_ortho = d.colored_ortho
    ∧ (parseSettingsOrtho cfg d).use_multi_threads = d.use_multi_threads
    ∧ (parseSettingsOrtho cfg d).show_orthomosaic_opencv
        = cfg.backward_grid_show_orthomosaic_opencv
    ∧ (parseSettingsOrtho cfg d).save_orthomosaic_jpg
        = cfg.backward_grid_save_orthomosaic_jpg
    ∧ (parseSettingsOrtho cfg d).orthomosaic_jpg_filename
        = cfg.backward_grid_orthomosaic_jpg_filename
    ∧ (parseSettingsOrtho cfg d).orthomosaic_elevation_m
        = cfg.backward_grid_orthomosaic_elevation_m
    ∧ (parseSettingsOrtho cfg d).use_digital_elevation_map
        = cfg.backward_grid_use_digital_elevation_map
    ∧ (incSettingsOrtho icfg d).colored_ortho = icfg.backward_grid_colored_ortho
    ∧ (incSettingsOrtho icfg d).use_multi_threads = icfg.backward_grid_use_multi_threads :=
  ⟨rfl, rfl, rfl, rfl, rfl, rfl, rfl, rfl, rfl⟩
